import Mathlib

/-!
Verification of the streaming chat orchestration core of `ai-assistant-web`.

This file shallowly embeds the TypeScript source:
  * `src/lib/openai.ts` — error mapping (`handleOpenAIError`);
  * the observability module — process-global correlation identifier;
  * the tool service — registry, `validateParameters`, `executeTool`;
  * `ChatService.transformStream` — the streaming orchestrator, modelled as a
    step function over an explicit state (tool-call fragment buffer, persisted
    message store, emitted event trace).

JavaScript runtime values flowing through `JSON.parse` / `JSON.stringify` are
modelled by the inductive `JsValue`; the host `JSON.parse` is modelled by a
small executable parser `jsonParse` that agrees with it on the concrete
argument strings exercised below (objects/arrays of strings and integers,
`null`, booleans; escape sequences are rejected conservatively).
-/

set_option maxHeartbeats 1000000

/-- JavaScript runtime values as produced by `JSON.parse`, plus `undef` for
the JavaScript `undefined` value (needed by the validator's
`parameters[field] === undefined` check). -/
inductive JsValue where
  | null
  | undef
  | bool (b : Bool)
  | num (n : Int)
  | str (s : String)
  | arr (elems : List JsValue)
  | obj (fields : List (String × JsValue))

/-- The JavaScript `typeof` operator on a `JsValue` (note `typeof null` is
`"object"` in JavaScript). -/
def jsTypeof : JsValue → String
  | .str _ => "string"
  | .num _ => "number"
  | .bool _ => "boolean"
  | .null => "object"
  | .arr _ => "object"
  | .obj _ => "object"
  | .undef => "undefined"

/-- JavaScript truthiness-based `a || b` on strings (`''` is falsy). -/
def jsOr (a b : String) : String := if a = "" then b else a

/-- A value supports the JavaScript `in` operator and `Object.entries`
iteration the way the validator uses them exactly when it is an object or an
array; on primitives `field in parameters` throws a `TypeError`. -/
def jsObjectLike : JsValue → Bool
  | .obj _ => true
  | .arr _ => true
  | _ => false

/-- `Object.entries` of a parsed JSON value: fields of an object, or
index/element pairs of an array. -/
def jsEntries : JsValue → List (String × JsValue)
  | .obj kvs => kvs
  | .arr xs => xs.enum.map (fun p => (toString p.1, p.2))
  | _ => []

/-- Whitespace skipping for the JSON grammar. -/
def skipWs : List Char → List Char
  | [] => []
  | c :: cs => if c = ' ' ∨ c = '\n' ∨ c = '\t' ∨ c = '\r' then skipWs cs else c :: cs

/-- Parse the body of a JSON string literal after the opening quote; escape
sequences are rejected (none occur in the strings this development
evaluates). -/
def parseStrBody : List Char → Option (String × List Char)
  | [] => none
  | c :: cs =>
    if c = '"' then some ("", cs)
    else if c = '\\' then none
    else match parseStrBody cs with
      | some (s, rest) => some (String.mk (c :: s.data), rest)
      | none => none

/-- Split leading decimal digits. -/
def takeDigits : List Char → List Char × List Char
  | [] => ([], [])
  | c :: cs =>
    if c.isDigit then
      let (ds, rest) := takeDigits cs
      (c :: ds, rest)
    else ([], c :: cs)

/-- Digits to a natural number. -/
def digitsToNat (ds : List Char) : Nat :=
  ds.foldl (fun acc c => acc * 10 + (c.toNat - '0'.toNat)) 0

/-- Check that the input starts with the given literal characters. -/
def expectLit : List Char → List Char → Option (List Char)
  | [], cs => some cs
  | _, [] => none
  | l :: ls, c :: cs => if c = l then expectLit ls cs else none

mutual

/-- Fuel-indexed JSON value parser (model of the host `JSON.parse`). -/
def parseVal : Nat → List Char → Option (JsValue × List Char)
  | 0, _ => none
  | fuel + 1, input =>
    match skipWs input with
    | [] => none
    | c :: rest =>
      if c = 'n' then (expectLit ['u', 'l', 'l'] rest).map (fun r => (JsValue.null, r))
      else if c = 't' then (expectLit ['r', 'u', 'e'] rest).map (fun r => (JsValue.bool true, r))
      else if c = 'f' then (expectLit ['a', 'l', 's', 'e'] rest).map (fun r => (JsValue.bool false, r))
      else if c = '"' then (parseStrBody rest).map (fun p => (JsValue.str p.1, p.2))
      else if c = '-' then
        match takeDigits rest with
        | ([], _) => none
        | (ds, r) => some (JsValue.num (-(digitsToNat ds : Int)), r)
      else if c.isDigit then
        match takeDigits (c :: rest) with
        | ([], _) => none
        | (ds, r) => some (JsValue.num (digitsToNat ds : Int), r)
      else if c = '[' then
        match skipWs rest with
        | ']' :: r => some (JsValue.arr [], r)
        | other => (parseArrItems fuel other).map (fun p => (JsValue.arr p.1, p.2))
      else if c = '{' then
        match skipWs rest with
        | '}' :: r => some (JsValue.obj [], r)
        | other => (parseObjItems fuel other).map (fun p => (JsValue.obj p.1, p.2))
      else none

/-- Parse one-or-more comma-separated array elements up to `]`. -/
def parseArrItems : Nat → List Char → Option (List JsValue × List Char)
  | 0, _ => none
  | fuel + 1, input =>
    match parseVal fuel input with
    | none => none
    | some (v, rest) =>
      match skipWs rest with
      | ',' :: r =>
        match parseArrItems fuel r with
        | some (vs, r2) => some (v :: vs, r2)
        | none => none
      | ']' :: r => some ([v], r)
      | _ => none

/-- Parse one-or-more comma-separated `"key": value` members up to `}`. -/
def parseObjItems : Nat → List Char → Option (List (String × JsValue) × List Char)
  | 0, _ => none
  | fuel + 1, input =>
    match skipWs input with
    | '"' :: rest =>
      match parseStrBody rest with
      | none => none
      | some (k, r1) =>
        match skipWs r1 with
        | ':' :: r2 =>
          match parseVal fuel r2 with
          | none => none
          | some (v, r3) =>
            match skipWs r3 with
            | ',' :: r4 =>
              match parseObjItems fuel r4 with
              | some (kvs, r5) => some ((k, v) :: kvs, r5)
              | none => none
            | '}' :: r4 => some ([(k, v)], r4)
            | _ => none
        | _ => none
    | _ => none

end

/-- Model of the host `JSON.parse`: `none` models a thrown `SyntaxError`. -/
def jsonParse (s : String) : Option JsValue :=
  match parseVal (s.length + 1) s.data with
  | some (v, rest) => if skipWs rest = [] then some v else none
  | none => none

mutual

/-- Model of the host `JSON.stringify` on parsed JSON values. -/
def jsonStringify : JsValue → String
  | .null => "null"
  | .undef => "null"
  | .bool b => if b then "true" else "false"
  | .num n => toString n
  | .str s => "\x22" ++ s ++ "\x22"
  | .arr xs => "[" ++ stringifyItems xs ++ "]"
  | .obj kvs => "\x7b" ++ stringifyFields kvs ++ "\x7d"

/-- Comma-separated serialization of array elements. -/
def stringifyItems : List JsValue → String
  | [] => ""
  | [x] => jsonStringify x
  | x :: y :: xs => jsonStringify x ++ "," ++ stringifyItems (y :: xs)

/-- Comma-separated serialization of object members. -/
def stringifyFields : List (String × JsValue) → String
  | [] => ""
  | [(k, v)] => "\x22" ++ k ++ "\x22:" ++ jsonStringify v
  | (k, v) :: p :: kvs => "\x22" ++ k ++ "\x22:" ++ jsonStringify v ++ "," ++ stringifyFields (p :: kvs)

end

/-! ### Observability: process-global correlation identifier

Source: the observability module in `src/lib` — a module-level mutable
`let correlationId: string | null = null` read/written by `getCorrelationId`
and `setCorrelationId`.  The mutable cell is passed explicitly as
`Option String`; `crypto.randomUUID()` is modelled as an oracle argument
supplying the fresh identifier that would be generated. -/

/-- Embedding of `getCorrelationId`: returns the cached identifier, or caches
and returns the freshly generated one (`fresh` stands for the value
`randomUUID()` would produce on this call). -/
def getCorrelationId (fresh : String) : Option String → String × Option String
  | none => (fresh, some fresh)
  | some id => (id, some id)

/-- Embedding of `setCorrelationId`. -/
def setCorrelationId (id : String) (_ : Option String) : Option String :=
  some id

/-- Run a sequence of `getCorrelationId` calls, threading the module-level
cell; each list element is the `randomUUID()` oracle value for that call. -/
def getCorrelationIdSeq : List String → Option String → List String × Option String
  | [], cell => ([], cell)
  | fresh :: rest, cell =>
    let (id, cell1) := getCorrelationId fresh cell
    let (ids, cell2) := getCorrelationIdSeq rest cell1
    (id :: ids, cell2)

/-! ### Model Client Adapter error mapping

Source: `handleOpenAIError` in `src/src/lib/openai.ts` (lines 224–278). -/

/-- Embedding of the `APIError` class fields relevant to the mapping. -/
structure APIErrorModel where
  code : String
  message : String
  status : Option Nat

/-- The classes of upstream error the `instanceof` chain in
`handleOpenAIError` distinguishes: an `OpenAI.APIError` carrying an HTTP
status and message, a rate-limit error, a connection (transport) error, a
connection timeout, or anything else. -/
inductive UpstreamError where
  | api (status : Nat) (message : String)
  | rateLimit
  | connection
  | connectionTimeout
  | other

/-- Embedding of the literal `errorCodes` record keyed by HTTP status inside
`handleOpenAIError`; `none` models a failed lookup. -/
def errorCodes (status : Nat) (message : String) : Option (String × String) :=
  if status == 400 then some ("BAD_REQUEST", jsOr message "Invalid request to OpenAI API")
  else if status == 401 then some ("UNAUTHORIZED", "Invalid API key or authentication failure")
  else if status == 403 then some ("FORBIDDEN", "Access to this resource is forbidden")
  else if status == 404 then some ("NOT_FOUND", "The requested resource was not found")
  else if status == 429 then some ("RATE_LIMITED", "Rate limit exceeded. Please retry later")
  else if status == 500 then some ("INTERNAL_ERROR", "OpenAI internal server error")
  else if status == 503 then some ("SERVICE_UNAVAILABLE", "OpenAI service is temporarily unavailable")
  else none

/-- Embedding of `handleOpenAIError` (`src/src/lib/openai.ts:224`). -/
def handleOpenAIError : UpstreamError → APIErrorModel
  | .api status message =>
    match errorCodes status message with
    | some (c, m) => { code := c, message := m, status := some status }
    | none =>
      { code := "UNKNOWN_ERROR"
        message := jsOr message "An unknown error occurred"
        status := some status }
  | .rateLimit =>
    { code := "RATE_LIMITED", message := "Rate limit exceeded. Please retry later", status := some 429 }
  | .connection =>
    { code := "CONNECTION_ERROR", message := "Failed to connect to OpenAI API", status := none }
  | .connectionTimeout =>
    { code := "TIMEOUT", message := "Request to OpenAI API timed out", status := none }
  | .other =>
    { code := "INTERNAL_ERROR", message := "An unexpected error occurred", status := none }


/-! ### Tool Registry and Tool Service

Source: the tool service in `src/src/lib/validation.ts` (concatenated module):
`ToolResult`, the module-level `toolRegistry` map with eight built-in tools,
`ToolService.executeTool` and `ToolService.validateParameters`. -/

/-- Embedding of the `ToolResult` interface. -/
structure ToolResult where
  success : Bool
  result : Option JsValue := none
  error : Option String := none
  executionTimeMs : Int

/-- Embedding of one property of a tool's JSON-schema-like parameter spec
(the fields `validateParameters` and tool conversion read). -/
structure PropSchema where
  type : String
  description : Option String := none
  enum : Option (List String) := none
  default : Option JsValue := none

/-- Embedding of a tool's `parameters` spec: an object schema with named
properties and an optional `required` list (`none` models an absent —
falsy — `required` field). -/
structure ParamSchema where
  properties : List (String × PropSchema)
  required : Option (List String)

/-- Embedding of the `ToolDefinition` interface (`src/types/tools`). -/
structure ToolDefinition where
  name : String
  description : String
  parameters : ParamSchema

/-- A `Record<string, unknown>` of parameters, as an ordered field list. -/
abbrev JsObj := List (String × JsValue)

/-- One entry of the module-level `toolRegistry` map.  The executor is the
registered async tool function; `Except.error msg` models a thrown
exception whose `.message` is `msg`. -/
structure RegisteredTool where
  name : String
  execute : JsObj → Except String ToolResult
  definition : ToolDefinition

/-- Tests whether a required field is missing in the sense of the validator:
`!(field in parameters) || parameters[field] === undefined ||
parameters[field] === null`. -/
def missingRequiredField (parameters : JsObj) (field : String) : Bool :=
  match parameters.find? (fun p => p.1 == field) with
  | none => true
  | some (_, .undef) => true
  | some (_, .null) => true
  | some _ => false

/-- The JavaScript `includes` check the enum constraint performs: strict
equality of the runtime value against the (string) enum members. -/
def enumIncludes (es : List String) (v : JsValue) : Bool :=
  match v with
  | .str s => es.contains s
  | _ => false

/-- Per-entry body of the type/enum checking loop of `validateParameters`:
returns the first error for parameter `key` with value `value`, or `none`
to continue. -/
def typeOrEnumError (properties : List (String × PropSchema)) (key : String) (value : JsValue) :
    Option String :=
  match properties.find? (fun p => p.1 == key) with
  | none => none
  | some (_, propSchema) =>
    let allowedTypes := [propSchema.type]
    let actualType := jsTypeof value
    if ¬ allowedTypes.contains actualType ∧ ¬ allowedTypes.contains "null" then
      some ("Invalid type for " ++ key ++ ": expected " ++
        String.intercalate " or " allowedTypes ++ ", got " ++ actualType)
    else
      match propSchema.enum with
      | some es =>
        if enumIncludes es value then none
        else some ("Invalid value for " ++ key ++ ": must be one of " ++ String.intercalate ", " es)
      | none => none

/-- Embedding of `ToolService.validateParameters`
(`src/src/lib/validation.ts:536`): first missing required field, else first
type/enum violation over `Object.entries(parameters)`, else `null`. -/
def validateParameters (parameters : JsObj) (schema : ParamSchema) : Option String :=
  match schema.required with
  | none => none
  | some requiredFields =>
    match requiredFields.findSome?
        (fun field =>
          if missingRequiredField parameters field then
            some ("Missing required field: " ++ field)
          else none) with
    | some e => some e
    | none => parameters.findSome? (fun kv => typeOrEnumError schema.properties kv.1 kv.2)

/-- Embedding of `ToolService.executeTool` (`src/src/lib/validation.ts:473`).
`startTime`/`endTime` are the two `Date.now()` readings taken at entry and at
the return point; the second component records whether the underlying tool
function was invoked.  The definition is total: every branch of the source
returns a `ToolResult` (exceptions from the tool body are caught). -/
def executeTool (registry : List RegisteredTool) (toolName : String) (parameters : JsObj)
    (startTime endTime : Int) : ToolResult × Bool :=
  match registry.find? (fun t => t.name == toolName) with
  | none =>
    ({ success := false
       error := some ("Tool not found: " ++ toolName)
       executionTimeMs := endTime - startTime }, false)
  | some tool =>
    match validateParameters parameters tool.definition.parameters with
    | some validationError =>
      ({ success := false
         error := some validationError
         executionTimeMs := endTime - startTime }, false)
    | none =>
      match tool.execute parameters with
      | .ok result => (result, true)
      | .error msg =>
        ({ success := false
           error := some msg
           executionTimeMs := endTime - startTime }, true)

/-- Parameter schema of the registered `file_read` tool. -/
def fileReadSchema : ParamSchema :=
  { properties :=
      [ ("path", { type := "string", description := some "Path to the file to read" })
      , ("encoding", { type := "string", enum := some ["utf-8", "base64"],
                       default := some (JsValue.str "utf-8") })
      , ("maxLines", { type := "integer",
                       description := some "Maximum number of lines to read (0 for all)",
                       default := some (JsValue.num 0) }) ]
    required := some ["path"] }

/-- Parameter schema of the registered `file_write` tool. -/
def fileWriteSchema : ParamSchema :=
  { properties :=
      [ ("path", { type := "string", description := some "Path to the file to write" })
      , ("content", { type := "string", description := some "Content to write to the file" })
      , ("append", { type := "boolean",
                     description := some "Append to file instead of overwriting",
                     default := some (JsValue.bool false) }) ]
    required := some ["path", "content"] }

/-- Parameter schema of the registered `file_list` tool. -/
def fileListSchema : ParamSchema :=
  { properties :=
      [ ("path", { type := "string", description := some "Directory path to list" })
      , ("recursive", { type := "boolean", description := some "List files recursively",
                        default := some (JsValue.bool false) })
      , ("pattern", { type := "string", description := some "Glob pattern to filter files" }) ]
    required := some ["path"] }

/-- Parameter schema of the registered `web_search` tool. -/
def webSearchSchema : ParamSchema :=
  { properties :=
      [ ("query", { type := "string", description := some "Search query" })
      , ("numResults", { type := "integer", description := some "Number of results to return",
                         default := some (JsValue.num 5) }) ]
    required := some ["query"] }

/-- Parameter schema of the registered `web_fetch` tool. -/
def webFetchSchema : ParamSchema :=
  { properties :=
      [ ("url", { type := "string", description := some "URL to fetch content from" })
      , ("extractText", { type := "boolean", description := some "Extract only text content",
                          default := some (JsValue.bool true) })
      , ("maxLength", { type := "integer", description := some "Maximum characters to extract",
                        default := some (JsValue.num 10000) }) ]
    required := some ["url"] }

/-- Parameter schema of the registered `code_execute` tool. -/
def codeExecuteSchema : ParamSchema :=
  { properties :=
      [ ("code", { type := "string", description := some "Code to execute" })
      , ("language", { type := "string", enum := some ["javascript", "python", "bash"],
                       description := some "Programming language" })
      , ("timeout", { type := "integer", description := some "Execution timeout in milliseconds",
                      default := some (JsValue.num 30000) }) ]
    required := some ["code", "language"] }

/-- Parameter schema of the registered `data_transform` tool. -/
def dataTransformSchema : ParamSchema :=
  { properties :=
      [ ("data", { type := "string", description := some "Data to transform" })
      , ("fromFormat", { type := "string", enum := some ["json", "csv", "yaml"],
                         description := some "Source format" })
      , ("toFormat", { type := "string", enum := some ["json", "csv", "yaml"],
                       description := some "Target format" }) ]
    required := some ["data", "fromFormat", "toFormat"] }

/-- Parameter schema of the registered `data_query` tool. -/
def dataQuerySchema : ParamSchema :=
  { properties :=
      [ ("data", { type := "string", description := some "JSON data to query" })
      , ("query", { type := "string", description := some "JSONPath query expression" }) ]
    required := some ["data", "query"] }

/-- Embedding of the module-level `toolRegistry` with its eight built-in
tools, in registration order.  The executor implementations live behind
external side effects (filesystem, network, sandbox), so they are taken as
parameters; every claim below holds for arbitrary executors. -/
def toolRegistry (fsRead fsWrite fsList webSearch webFetch codeExec dataTransform dataQuery :
    JsObj → Except String ToolResult) : List RegisteredTool :=
  [ { name := "file_read", execute := fsRead
      definition := { name := "file_read"
                      description := "Read the contents of a file from the local filesystem"
                      parameters := fileReadSchema } }
  , { name := "file_write", execute := fsWrite
      definition := { name := "file_write"
                      description := "Write content to a file on the local filesystem"
                      parameters := fileWriteSchema } }
  , { name := "file_list", execute := fsList
      definition := { name := "file_list"
                      description := "List files and directories in a given path"
                      parameters := fileListSchema } }
  , { name := "web_search", execute := webSearch
      definition := { name := "web_search"
                      description := "Search the web for information"
                      parameters := webSearchSchema } }
  , { name := "web_fetch", execute := webFetch
      definition := { name := "web_fetch"
                      description := "Fetch and extract content from a URL"
                      parameters := webFetchSchema } }
  , { name := "code_execute", execute := codeExec
      definition := { name := "code_execute"
                      description := "Execute code in a sandboxed environment"
                      parameters := codeExecuteSchema } }
  , { name := "data_transform", execute := dataTransform
      definition := { name := "data_transform"
                      description := "Transform data between formats (JSON, CSV, YAML)"
                      parameters := dataTransformSchema } }
  , { name := "data_query", execute := dataQuery
      definition := { name := "data_query"
                      description := "Query and filter data using JSONPath"
                      parameters := dataQuerySchema } } ]

/-! ### Chat Service: stream transformation

Source: `ChatService.transformStream` (`src/unnamed/part_002`, lines
142–255).  The provider's `ReadableStream` is modelled as the list of
`StreamChunk` values successive `reader.read()` calls yield (the `done`
signal is the end of the list).  Side effects — tool execution, message
persistence via `memoryService.saveMessage`, the continuation
`openai.chat.completions.create` call, and `controller.enqueue`/`close` —
are recorded in an explicit event trace. -/

/-- Embedding of the `function` member of a tool-call delta; the source
guards with `tc.function?.name || …` and `tc.function?.arguments || ''`, and
the adapter normalizes absent fields to `''`, so absent is `""` here. -/
structure ToolCallFn where
  name : String
  arguments : String
deriving DecidableEq

/-- Embedding of one element of `choice.delta.toolCalls`. -/
structure ToolCallDelta where
  index : Nat
  id : String
  function : ToolCallFn
deriving DecidableEq

/-- Embedding of `choice.delta` of a `StreamChunk`. -/
structure ChunkDelta where
  role : Option String := none
  content : Option String := none
  toolCalls : Option (List ToolCallDelta) := none
deriving DecidableEq

/-- Embedding of one element of `chunk.choices`. -/
structure ChunkChoice where
  index : Nat
  delta : ChunkDelta
  finishReason : Option String
deriving DecidableEq

/-- Embedding of `StreamChunk` (`src/src/lib/openai.ts:38`; the constant
`object: 'chat.completion.chunk'` discriminator is omitted). -/
structure StreamChunk where
  id : String
  created : Int
  model : String
  choices : List ChunkChoice
deriving DecidableEq

/-- Message roles of the `ChatMessage` union type. -/
inductive Role where
  | system
  | user
  | assistant
  | tool
deriving DecidableEq

/-- Embedding of `ChatMessage` (`src/src/lib/openai.ts:20`). -/
structure ChatMessage where
  role : Role
  content : String
  name : Option String := none
  toolCallId : Option String := none
deriving DecidableEq

/-- Embedding of the entries of `toolCallsBuffer`
(`Map<number, {id, name, arguments}>`). -/
structure ToolCallFragment where
  id : String
  name : String
  arguments : String
deriving DecidableEq

/-- The session row the orchestrator loads (`memoryService.getSession`):
only the fields `transformStream` reads. -/
structure SessionModel where
  id : String
  systemPrompt : Option String

/-- JavaScript `Map.get` on the fragment buffer. -/
def bufferGet : List (Nat × ToolCallFragment) → Nat → Option ToolCallFragment
  | [], _ => none
  | p :: rest, i => if p.1 == i then some p.2 else bufferGet rest i

/-- JavaScript `Map.set` on the fragment buffer: replaces the entry in its
original insertion position if the key is present, otherwise appends. -/
def bufferSet : List (Nat × ToolCallFragment) → Nat → ToolCallFragment →
    List (Nat × ToolCallFragment)
  | [], i, f => [(i, f)]
  | p :: rest, i, f => if p.1 == i then (i, f) :: rest else p :: bufferSet rest i f

/-- Embedding of the per-delta buffering step (`part_002:167–179`):
`existing = buffer.get(index) || {id:'',name:'',arguments:''}` followed by
`buffer.set(index, {id: tc.id || existing.id, name: tc.function?.name ||
existing.name, arguments: existing.arguments + (tc.function?.arguments ||
'')})`. -/
def applyToolCallDelta (buffer : List (Nat × ToolCallFragment)) (tc : ToolCallDelta) :
    List (Nat × ToolCallFragment) :=
  let existing := (bufferGet buffer tc.index).getD { id := "", name := "", arguments := "" }
  bufferSet buffer tc.index
    { id := jsOr tc.id existing.id
      name := jsOr tc.function.name existing.name
      arguments := existing.arguments ++ tc.function.arguments }

/-- Observable actions of `transformStream`, in program order. -/
inductive OrchEvent where
  | toolExec (name : String) (args : JsValue)
  | persistMsg (m : ChatMessage)
  | continuationCall (msgs : List ChatMessage)
  | enqueueToolChunk
  | enqueueChunk (c : StreamChunk)
  | toolErrorLog (name : String)
  | closeStream

/-- Serialization of a `ToolResult` as `JSON.stringify` produces it for the
persisted tool message content (fields in declaration order, absent optional
fields omitted). -/
def stringifyToolResult (r : ToolResult) : String :=
  "\x7b\x22success\x22:" ++ (if r.success then "true" else "false")
  ++ (match r.result with
      | some v => ",\x22result\x22:" ++ jsonStringify v
      | none => "")
  ++ (match r.error with
      | some e => ",\x22error\x22:\x22" ++ e ++ "\x22"
      | none => "")
  ++ ",\x22executionTimeMs\x22:" ++ toString r.executionTimeMs ++ "\x7d"

/-- The body of the per-fragment loop (`part_002:187–243`) for one buffered
tool call, given the messages persisted so far in the session.  Returns the
updated session store and the emitted events.  The `catch` branch
(`toolErrorLog`) is reached when `JSON.parse` throws on the accumulated
argument string, and also when the parsed value is a primitive and the tool
exists, in which case the `field in parameters` check inside
`validateParameters` throws a `TypeError` (that call is outside
`executeTool`'s own try/catch).  On the success path the source, in order:
executes the tool, persists the tool-role message, reloads
`getMessages(sessionId)` (ascending, limit 100) and the session, issues the
continuation completion call, and enqueues a synthetic tool-result chunk. -/
def runToolCall (registry : List RegisteredTool) (session : SessionModel)
    (store : List ChatMessage) (toolCall : ToolCallFragment) :
    List ChatMessage × List OrchEvent :=
  match jsonParse toolCall.arguments with
  | none => (store, [OrchEvent.toolErrorLog toolCall.name])
  | some args =>
    if (registry.find? (fun t => t.name == toolCall.name)).isSome && !(jsObjectLike args) then
      (store, [OrchEvent.toolErrorLog toolCall.name])
    else
      let result := (executeTool registry toolCall.name (jsEntries args) 0 0).1
      let toolResultMessage : ChatMessage :=
        { role := .tool
          content := stringifyToolResult result
          toolCallId := some toolCall.id
          name := some toolCall.name }
      let store1 := store ++ [toolResultMessage]
      let continuationMessages :=
        ({ role := .system, content := (session.systemPrompt.getD "") } : ChatMessage)
          :: store1.take 100
      (store1,
        [ OrchEvent.toolExec toolCall.name args
        , OrchEvent.persistMsg toolResultMessage
        , OrchEvent.continuationCall continuationMessages
        , OrchEvent.enqueueToolChunk ])

/-- The `for (const [, toolCall] of toolCallsBuffer)` loop: fragments in Map
insertion order, threading the session store. -/
def runToolCalls (registry : List RegisteredTool) (session : SessionModel) :
    List ChatMessage → List (Nat × ToolCallFragment) → List ChatMessage × List OrchEvent
  | store, [] => (store, [])
  | store, p :: rest =>
    let r1 := runToolCall registry session store p.2
    let r2 := runToolCalls registry session r1.1 rest
    (r2.1, r1.2 ++ r2.2)

/-- State threaded through the `start` callback of the returned
`ReadableStream`: the fragment buffer, the session's persisted messages, the
trace of observable actions, and the `hasFinishReason` flag. -/
structure OrchState where
  buffer : List (Nat × ToolCallFragment)
  store : List ChatMessage
  events : List OrchEvent
  finished : Bool

/-- Embedding of the tool-execution block guarded by
`choice.finishReason === 'tool_calls' && toolCallsBuffer.size > 0`
(`part_002:186–244`). -/
def runFragments (registry : List RegisteredTool) (session : SessionModel)
    (st : OrchState) : OrchState :=
  let r := runToolCalls registry session st.store st.buffer
  { st with store := r.1, events := st.events ++ r.2 }

/-- Embedding of the per-choice body of the chunk loop (`part_002:165–246`):
buffer any tool-call deltas, then handle a finish reason. -/
def processChoice (registry : List RegisteredTool) (session : SessionModel)
    (st : OrchState) (choice : ChunkChoice) : OrchState :=
  let st1 :=
    match choice.delta.toolCalls with
    | some tcs => { st with buffer := tcs.foldl applyToolCallDelta st.buffer }
    | none => st
  match choice.finishReason with
  | none => st1
  | some r =>
    let st2 := { st1 with finished := true }
    if r == "tool_calls" && st2.buffer.length != 0 then
      runFragments registry session st2
    else st2

/-- Processing of one chunk read from the provider stream: all choices, then
the unconditional `controller.enqueue(…JSON.stringify(value)…)` at
`part_002:248`. -/
def stepChunk (registry : List RegisteredTool) (session : SessionModel)
    (st : OrchState) (c : StreamChunk) : OrchState :=
  let st1 := c.choices.foldl (processChoice registry session) st
  { st1 with events := st1.events ++ [OrchEvent.enqueueChunk c] }

/-- The `while (!hasFinishReason)` read loop: the list is what the provider
stream yields; exhaustion is the `done` branch (`controller.close()` and
return, with no enqueue for that read). -/
def runStream (registry : List RegisteredTool) (session : SessionModel) :
    List StreamChunk → OrchState → OrchState
  | [], st => { st with events := st.events ++ [OrchEvent.closeStream] }
  | c :: rest, st =>
    let st1 := stepChunk registry session st c
    if st1.finished then st1 else runStream registry session rest st1

/-- Embedding of `ChatService.transformStream`: initial state has an empty
fragment buffer, the session's already-persisted messages as the store, an
empty trace, and `hasFinishReason = false`. -/
def transformStream (registry : List RegisteredTool) (session : SessionModel)
    (initialStore : List ChatMessage) (chunks : List StreamChunk) : OrchState :=
  runStream registry session chunks
    { buffer := [], store := initialStore, events := [], finished := false }

/-! ### Observables of the orchestrator trace -/

/-- Coarse classification of trace events. -/
inductive EventKind where
  | exec
  | persist
  | continuation
  | toolChunk
  | chunk
  | errorLog
  | closed
deriving DecidableEq, Repr

/-- The kind of a trace event. -/
def eventKind : OrchEvent → EventKind
  | .toolExec _ _ => .exec
  | .persistMsg _ => .persist
  | .continuationCall _ => .continuation
  | .enqueueToolChunk => .toolChunk
  | .enqueueChunk _ => .chunk
  | .toolErrorLog _ => .errorLog
  | .closeStream => .closed

/-- Event-kind tests used by the counting statements below. -/
def isPersistEvent (e : OrchEvent) : Bool := eventKind e == .persist

/-- Test for a continuation completion call event. -/
def isContinuationEvent (e : OrchEvent) : Bool := eventKind e == .continuation

/-- Test for a tool-execution event. -/
def isToolExecEvent (e : OrchEvent) : Bool := eventKind e == .exec

/-- The messages a trace persists to the conversation store, in order. -/
def persistedMessages (evs : List OrchEvent) : List ChatMessage :=
  evs.filterMap fun e => match e with | .persistMsg m => some m | _ => none

/-- The tool names executed along a trace, in order. -/
def execNames (evs : List OrchEvent) : List String :=
  evs.filterMap fun e => match e with | .toolExec n _ => some n | _ => none

/-- The provider chunks forwarded verbatim to the caller, in order. -/
def enqueuedChunks (evs : List OrchEvent) : List StreamChunk :=
  evs.filterMap fun e => match e with | .enqueueChunk c => some c | _ => none

/-- How many persisted messages precede the first continuation completion
call of a trace. -/
def persistsBeforeFirstContinuation (evs : List OrchEvent) : Nat :=
  (evs.takeWhile (fun e => !(isContinuationEvent e))).countP isPersistEvent

/-- A chunk none of whose choices carries a finish reason. -/
def noFinish (c : StreamChunk) : Bool :=
  c.choices.all (fun ch => ch.finishReason.isNone)

/-- Buffer accumulation performed by one choice of a chunk. -/
def choiceBuffer (b : List (Nat × ToolCallFragment)) (ch : ChunkChoice) :
    List (Nat × ToolCallFragment) :=
  match ch.delta.toolCalls with
  | some tcs => tcs.foldl applyToolCallDelta b
  | none => b

/-- Buffer accumulation performed by one whole chunk. -/
def chunkBuffer (b : List (Nat × ToolCallFragment)) (c : StreamChunk) :
    List (Nat × ToolCallFragment) :=
  c.choices.foldl choiceBuffer b

/-- The fragment buffer accumulated over a chunk sequence, starting empty. -/
def accumBuffer (chunks : List StreamChunk) : List (Nat × ToolCallFragment) :=
  chunks.foldl chunkBuffer []

/-- Whether the per-fragment loop body reaches the tool-execution path for a
fragment (its accumulated argument string parses, and is not a primitive
while the tool exists — the combination that would make the validator's
`in` check throw). -/
def fragSucceeds (registry : List RegisteredTool) (f : ToolCallFragment) : Bool :=
  match jsonParse f.arguments with
  | none => false
  | some args => !((registry.find? (fun t => t.name == f.name)).isSome && !(jsObjectLike args))

/-- In-order concatenation of a list of strings. -/
def concatAll : List String → String
  | [] => ""
  | s :: rest => s ++ concatAll rest

/-- The argument string accumulated at a buffer index (empty when the index
is not present, matching the `|| {arguments:''}` default). -/
def argsAt (buffer : List (Nat × ToolCallFragment)) (i : Nat) : String :=
  ((bufferGet buffer i).getD { id := "", name := "", arguments := "" }).arguments

/-- A placeholder executor used to instantiate the registry's external tool
implementations in concrete evaluations. -/
def okExec : JsObj → Except String ToolResult :=
  fun _ => Except.ok { success := true, executionTimeMs := 0 }

/-- The concrete registry with all eight executors instantiated. -/
def testRegistry : List RegisteredTool :=
  toolRegistry okExec okExec okExec okExec okExec okExec okExec okExec

/-- The registry entry for `file_read`. -/
def fileReadEntry : RegisteredTool :=
  { name := "file_read", execute := okExec
    definition := { name := "file_read"
                    description := "Read the contents of a file from the local filesystem"
                    parameters := fileReadSchema } }

/-- The `persistMsg` payloads of a trace are all tool-role messages. -/
def persistToolOnly (e : OrchEvent) : Bool :=
  match e with
  | .persistMsg m => m.role == Role.tool
  | _ => true

/-- The conversation-store invariant threaded through the chunk loop: the
store is the initial store extended by exactly the persisted messages of the
trace, and every persisted message is tool-role. -/
def StoreInv (store0 : List ChatMessage) (st : OrchState) : Prop :=
  st.store = store0 ++ persistedMessages st.events ∧ st.events.all persistToolOnly = true

/-! ### Concrete streams used for evaluation -/

/-- A concrete session row. -/
def testSession : SessionModel := { id := "s1", systemPrompt := some "You are helpful" }

/-- A well-formed argument blob for the `web_search` tool. -/
def qArgs : String := "\x7b\x22query\x22:\x22hi\x22\x7d"

/-- Shorthand for a tool-call delta. -/
def mkDelta (i : Nat) (callId name args : String) : ToolCallDelta :=
  { index := i, id := callId, function := { name := name, arguments := args } }

/-- The single choice of `twoToolFinishChunk`: two complete tool-call
fragments and finish reason `tool_calls`. -/
def twoToolChoice : ChunkChoice :=
  { index := 0
    delta := { toolCalls := some [mkDelta 0 "call0" "web_search" qArgs, mkDelta 1 "call1" "web_search" qArgs] }
    finishReason := some "tool_calls" }

/-- A finish chunk carrying two complete tool-call fragments and finish
reason `tool_calls` in its single choice. -/
def twoToolFinishChunk : StreamChunk :=
  { id := "c1", created := 0, model := "gpt-4-turbo-preview", choices := [twoToolChoice] }

/-- The single choice of `oneToolFinishChunk`. -/
def oneToolChoice : ChunkChoice :=
  { index := 0
    delta := { toolCalls := some [mkDelta 0 "call0" "web_search" qArgs] }
    finishReason := some "tool_calls" }

/-- A finish chunk carrying one complete tool-call fragment. -/
def oneToolFinishChunk : StreamChunk :=
  { id := "c2", created := 0, model := "gpt-4-turbo-preview", choices := [oneToolChoice] }

/-- The single choice of `badArgsFinishChunk`: its fragment's argument
string is not JSON. -/
def badArgsChoice : ChunkChoice :=
  { index := 0
    delta := { toolCalls := some [mkDelta 0 "call0" "web_search" "not json"] }
    finishReason := some "tool_calls" }

/-- A finish chunk whose single fragment's argument string is not JSON. -/
def badArgsFinishChunk : StreamChunk :=
  { id := "c3", created := 0, model := "gpt-4-turbo-preview", choices := [badArgsChoice] }

/-- A mid-stream chunk carrying a raw tool-call delta and no finish reason. -/
def deltaOnlyChunk : StreamChunk :=
  { id := "c0", created := 0, model := "gpt-4-turbo-preview"
    choices := [ { index := 0
                   delta := { toolCalls := some [mkDelta 0 "call0" "web_search" qArgs] }
                   finishReason := none } ] }

/-- The single choice of `stopChunk`. -/
def stopChoice : ChunkChoice := { index := 0, delta := {}, finishReason := some "stop" }

/-- A plain stop chunk. -/
def stopChunk : StreamChunk :=
  { id := "c9", created := 0, model := "gpt-4-turbo-preview", choices := [stopChoice] }

/-- The trace of the two-fragment exchange. -/
def twoToolTrace : List OrchEvent :=
  (transformStream testRegistry testSession [] [twoToolFinishChunk]).events

/-! ### Sanity checks of the JSON parser model -/

example : jsonParse "\x7b\x22query\x22:\x22hi\x22\x7d" = some (JsValue.obj [("query", JsValue.str "hi")]) := by rfl
example : jsonParse "not json" = none := by rfl
example : jsonParse "\x7b\x7d" = some (JsValue.obj []) := by rfl
example : jsonParse "[1, -2]" = some (JsValue.arr [JsValue.num 1, JsValue.num (-2)]) := by rfl

/-! ### Buffer accumulation lemmas -/

theorem bufferGet_bufferSet_self (buf : List (Nat × ToolCallFragment)) (i : Nat)
    (f : ToolCallFragment) : bufferGet (bufferSet buf i f) i = some f := by
  induction buf with
  | nil => simp [bufferSet, bufferGet]
  | cons p rest ih =>
    by_cases h : p.1 == i
    · simp [bufferSet, bufferGet, h]
    · simp [bufferSet, bufferGet, h, ih]

theorem bufferGet_bufferSet_ne (buf : List (Nat × ToolCallFragment)) {i j : Nat}
    (h : ¬ i = j) (f : ToolCallFragment) :
    bufferGet (bufferSet buf j f) i = bufferGet buf i := by
  have h' : ¬ j = i := fun hh => h hh.symm
  induction buf with
  | nil => simp [bufferSet, bufferGet, h']
  | cons p rest ih =>
    by_cases hp : p.1 == j
    · have hj : p.1 = j := by simpa using hp
      have hpi : ¬ p.1 = i := by rw [hj]; exact h'
      simp [bufferSet, bufferGet, hp, h', hpi]
    · simp [bufferSet, bufferGet, hp, ih]

theorem argsAt_applyToolCallDelta (buf : List (Nat × ToolCallFragment))
    (tc : ToolCallDelta) (i : Nat) :
    argsAt (applyToolCallDelta buf tc) i
      = if tc.index = i then argsAt buf i ++ tc.function.arguments else argsAt buf i := by
  by_cases h : tc.index = i
  · subst h
    simp [argsAt, applyToolCallDelta, bufferGet_bufferSet_self]
  · simp [argsAt, applyToolCallDelta, bufferGet_bufferSet_ne buf (fun hh => h hh.symm), h]

/-! ### Claim C4: argument-fragment accumulation is order-preserving -/

theorem argsAt_foldl_applyToolCallDelta (deltas : List ToolCallDelta)
    (buffer : List (Nat × ToolCallFragment)) (i : Nat) :
    argsAt (deltas.foldl applyToolCallDelta buffer) i
      = argsAt buffer i
        ++ concatAll ((deltas.filter (fun d => d.index == i)).map
            (fun d => d.function.arguments)) := by
  induction deltas generalizing buffer with
  | nil => simp [concatAll]
  | cons d rest ih =>
    by_cases h : d.index = i
    · simp only [List.foldl_cons, List.filter_cons, h, beq_self_eq_true, if_pos,
        List.map_cons, concatAll, ih, argsAt_applyToolCallDelta]
      simp [h, String.append_assoc]
    · have hb : (d.index == i) = false := by simpa using h
      simp only [List.foldl_cons, List.filter_cons, hb, Bool.false_eq_true, if_neg,
        ih, argsAt_applyToolCallDelta]
      simp [h]

/-- C4. Argument-fragment accumulation is order-preserving string
concatenation per index: after buffering any sequence of tool-call deltas,
the accumulated argument string at each index is the initial string followed
by precisely the argument fragments targeted at that index, concatenated in
arrival order — hence splitting one argument blob across any number of
chunks yields the same accumulated string (and the same parsed JSON) as
delivering it in one chunk. -/
theorem toolCallArgs_accumulated_in_order (deltas : List ToolCallDelta)
    (buffer : List (Nat × ToolCallFragment)) (i : Nat) :
    argsAt (deltas.foldl applyToolCallDelta buffer) i
      = argsAt buffer i
        ++ concatAll ((deltas.filter (fun d => d.index == i)).map
            (fun d => d.function.arguments))
    ∧ jsonParse (argsAt (deltas.foldl applyToolCallDelta buffer) i)
      = jsonParse (argsAt buffer i
          ++ concatAll ((deltas.filter (fun d => d.index == i)).map
              (fun d => d.function.arguments))) :=
  ⟨argsAt_foldl_applyToolCallDelta deltas buffer i,
   congrArg jsonParse (argsAt_foldl_applyToolCallDelta deltas buffer i)⟩

/-! ### Claim C10: the correlation identifier is process-global -/

theorem getCorrelationIdSeq_cached (a : String) (freshes : List String) :
    getCorrelationIdSeq freshes (some a) = (freshes.map (fun _ => a), some a) := by
  induction freshes with
  | nil => rfl
  | cons f rest ih => simp [getCorrelationIdSeq, getCorrelationId, ih]

/-- C10. The correlation identifier is process-global, not request-scoped:
whatever the cell holds, one `getCorrelationId` call leaves it populated
with the returned identifier, and every subsequent `getCorrelationId` call
— regardless of which fresh UUIDs the oracle would supply, i.e. across
distinct exchanges and users — returns that same identifier and leaves the
cell unchanged; likewise after any `setCorrelationId id` every subsequent
call returns `id`. -/
theorem getCorrelationId_process_global (fresh : String) (cell : Option String)
    (freshes : List String) (id : String) :
    (getCorrelationId fresh cell).2 = some (getCorrelationId fresh cell).1
    ∧ getCorrelationIdSeq freshes (getCorrelationId fresh cell).2
        = (freshes.map (fun _ => (getCorrelationId fresh cell).1),
           some (getCorrelationId fresh cell).1)
    ∧ getCorrelationIdSeq freshes (setCorrelationId id cell)
        = (freshes.map (fun _ => id), some id) := by
  refine ⟨?_, ?_, ?_⟩
  · cases cell <;> rfl
  · cases cell <;> simp [getCorrelationId, getCorrelationIdSeq_cached]
  · simp [setCorrelationId, getCorrelationIdSeq_cached]

/-! ### Claim C6: the model client error taxonomy -/

/-- C6 counterexample. The claim maps every 5xx status to `INTERNAL_ERROR`
and admits no code outside its taxonomy, but `handleOpenAIError` maps an
upstream 503 to `SERVICE_UNAVAILABLE` (a code the claim's taxonomy does not
contain), maps the 5xx statuses absent from its literal table (e.g. 502) to
`UNKNOWN_ERROR`, and maps an unrecognized non-API error to `INTERNAL_ERROR`
rather than `UNKNOWN_ERROR`. -/
theorem handleOpenAIError_503_counterexample :
    (handleOpenAIError (.api 503 "")).code = "SERVICE_UNAVAILABLE"
    ∧ ¬ (handleOpenAIError (.api 503 "")).code = "INTERNAL_ERROR"
    ∧ (handleOpenAIError (.api 502 "")).code = "UNKNOWN_ERROR"
    ∧ (handleOpenAIError .other).code = "INTERNAL_ERROR"
    ∧ ¬ (handleOpenAIError .other).code = "UNKNOWN_ERROR" := by
  refine ⟨rfl, ?_, rfl, rfl, ?_⟩ <;> decide

theorem handleOpenAIError_api_code_mem (s : Nat) (m : String) :
    (handleOpenAIError (.api s m)).code ∈
      (["BAD_REQUEST", "UNAUTHORIZED", "FORBIDDEN", "NOT_FOUND", "RATE_LIMITED",
        "INTERNAL_ERROR", "SERVICE_UNAVAILABLE", "UNKNOWN_ERROR", "CONNECTION_ERROR",
        "TIMEOUT"] : List String) := by
  by_cases h1 : s = 400
  · simp [handleOpenAIError, errorCodes, h1]
  by_cases h2 : s = 401
  · simp [handleOpenAIError, errorCodes, h1, h2]
  by_cases h3 : s = 403
  · simp [handleOpenAIError, errorCodes, h1, h2, h3]
  by_cases h4 : s = 404
  · simp [handleOpenAIError, errorCodes, h1, h2, h3, h4]
  by_cases h5 : s = 429
  · simp [handleOpenAIError, errorCodes, h1, h2, h3, h4, h5]
  by_cases h6 : s = 500
  · simp [handleOpenAIError, errorCodes, h1, h2, h3, h4, h5, h6]
  by_cases h7 : s = 503
  · simp [handleOpenAIError, errorCodes, h1, h2, h3, h4, h5, h6, h7]
  · simp [handleOpenAIError, errorCodes, h1, h2, h3, h4, h5, h6, h7]

/-- C6 amended. The adapter folds upstream errors into the fixed taxonomy
given by its literal status table: 400→`BAD_REQUEST`, 401→`UNAUTHORIZED`,
403→`FORBIDDEN`, 404→`NOT_FOUND`, 429→`RATE_LIMITED` (with the retry-hint
message), 500→`INTERNAL_ERROR`, 503→`SERVICE_UNAVAILABLE`, any other HTTP
status (including other 5xx) →`UNKNOWN_ERROR`; rate-limit errors→
`RATE_LIMITED`, transport failure→`CONNECTION_ERROR`, deadline exceeded→
`TIMEOUT`, and any other unrecognized error→`INTERNAL_ERROR`; no code
outside these ten is ever produced. -/
theorem handleOpenAIError_taxonomy :
    (∀ m, (handleOpenAIError (.api 400 m)).code = "BAD_REQUEST")
    ∧ (∀ m, (handleOpenAIError (.api 401 m)).code = "UNAUTHORIZED")
    ∧ (∀ m, (handleOpenAIError (.api 403 m)).code = "FORBIDDEN")
    ∧ (∀ m, (handleOpenAIError (.api 404 m)).code = "NOT_FOUND")
    ∧ (∀ m, (handleOpenAIError (.api 429 m)).code = "RATE_LIMITED"
        ∧ (handleOpenAIError (.api 429 m)).message = "Rate limit exceeded. Please retry later")
    ∧ (∀ m, (handleOpenAIError (.api 500 m)).code = "INTERNAL_ERROR")
    ∧ (∀ m, (handleOpenAIError (.api 503 m)).code = "SERVICE_UNAVAILABLE")
    ∧ (∀ s m, s ∉ ([400, 401, 403, 404, 429, 500, 503] : List Nat) →
        (handleOpenAIError (.api s m)).code = "UNKNOWN_ERROR")
    ∧ (handleOpenAIError .rateLimit).code = "RATE_LIMITED"
    ∧ (handleOpenAIError .connection).code = "CONNECTION_ERROR"
    ∧ (handleOpenAIError .connectionTimeout).code = "TIMEOUT"
    ∧ (handleOpenAIError .other).code = "INTERNAL_ERROR"
    ∧ (∀ e, (handleOpenAIError e).code ∈
        (["BAD_REQUEST", "UNAUTHORIZED", "FORBIDDEN", "NOT_FOUND", "RATE_LIMITED",
          "INTERNAL_ERROR", "SERVICE_UNAVAILABLE", "UNKNOWN_ERROR", "CONNECTION_ERROR",
          "TIMEOUT"] : List String)) := by
  refine ⟨fun m => rfl, fun m => rfl, fun m => rfl, fun m => rfl, fun m => ⟨rfl, rfl⟩,
    fun m => rfl, fun m => rfl, ?_, rfl, rfl, rfl, rfl, ?_⟩
  · intro s m h
    simp only [List.mem_cons, List.not_mem_nil, or_false, not_or] at h
    obtain ⟨h400, h401, h403, h404, h429, h500, h503⟩ := h
    simp [handleOpenAIError, errorCodes, h400, h401, h403, h404, h429, h500, h503]
  · intro e
    cases e with
    | api s m => exact handleOpenAIError_api_code_mem s m
    | rateLimit => simp [handleOpenAIError]
    | connection => simp [handleOpenAIError]
    | connectionTimeout => simp [handleOpenAIError]
    | other => simp [handleOpenAIError]

/-- C6 witness. The hypothesis-bearing clause of the taxonomy theorem at
the concrete unlisted status 502. -/
theorem handleOpenAIError_taxonomy_witness :
    (502 : Nat) ∉ ([400, 401, 403, 404, 429, 500, 503] : List Nat)
    ∧ (handleOpenAIError (.api 502 "bad gateway")).code = "UNKNOWN_ERROR" :=
  ⟨by decide,
   (handleOpenAIError_taxonomy.2.2.2.2.2.2.2.1) 502 "bad gateway" (by decide)⟩

/-! ### Claims C7 and C8: tool registry execution -/


/-- C7. For every name not present in the tool registry (whatever the eight
registered executors are) and every parameter object, `executeTool` returns
`success = false` with error `"Tool not found: <name>"`, a non-negative
execution duration (the two `Date.now()` readings being monotone), and does
not invoke any tool function; the definition is total, so no exception is
raised. -/
theorem executeTool_unknown_tool
    (fsRead fsWrite fsList webSearch webFetch codeExec dataTransform dataQuery :
      JsObj → Except String ToolResult)
    (toolName : String) (parameters : JsObj) (startTime endTime : Int)
    (hmiss : ((toolRegistry fsRead fsWrite fsList webSearch webFetch codeExec
        dataTransform dataQuery).find? (fun t => t.name == toolName)) = none)
    (hclock : startTime ≤ endTime) :
    executeTool (toolRegistry fsRead fsWrite fsList webSearch webFetch codeExec
        dataTransform dataQuery) toolName parameters startTime endTime
      = ({ success := false
           result := none
           error := some ("Tool not found: " ++ toolName)
           executionTimeMs := endTime - startTime }, false)
    ∧ 0 ≤ (executeTool (toolRegistry fsRead fsWrite fsList webSearch webFetch codeExec
        dataTransform dataQuery) toolName parameters startTime endTime).1.executionTimeMs := by
  constructor
  · simp [executeTool, hmiss]
  · simp only [executeTool, hmiss]
    omega

/-- C7 witness: `execute("nonexistent_tool", {})` on the concrete registry. -/
theorem executeTool_unknown_tool_witness :
    ((testRegistry.find? (fun t => t.name == "nonexistent_tool")) = none)
    ∧ ((5 : Int) ≤ 7)
    ∧ executeTool testRegistry "nonexistent_tool" [] 5 7
        = ({ success := false
             result := none
             error := some ("Tool not found: " ++ "nonexistent_tool")
             executionTimeMs := 7 - 5 }, false)
    ∧ 0 ≤ (executeTool testRegistry "nonexistent_tool" [] 5 7).1.executionTimeMs :=
  ⟨rfl, by decide,
   (executeTool_unknown_tool okExec okExec okExec okExec okExec okExec okExec okExec
      "nonexistent_tool" [] 5 7 rfl (by decide)).1,
   (executeTool_unknown_tool okExec okExec okExec okExec okExec okExec okExec okExec
      "nonexistent_tool" [] 5 7 rfl (by decide)).2⟩

/-- C8. For every registered tool (whatever the eight executors are), if the
supplied parameters fail schema validation — a required field absent,
`undefined` or `null`, a present field's runtime `typeof` not among the
declared allowed types, or an enum violation, exactly as `validateParameters`
reports — then `executeTool` returns `success = false` carrying the
validation error, and the underlying tool function is never invoked (the
invocation flag is `false`, so the result does not depend on any
executor). -/
theorem executeTool_validation_failure
    (fsRead fsWrite fsList webSearch webFetch codeExec dataTransform dataQuery :
      JsObj → Except String ToolResult)
    (toolName : String) (parameters : JsObj) (startTime endTime : Int)
    (tool : RegisteredTool) (err : String)
    (hfind : ((toolRegistry fsRead fsWrite fsList webSearch webFetch codeExec
        dataTransform dataQuery).find? (fun t => t.name == toolName)) = some tool)
    (hval : validateParameters parameters tool.definition.parameters = some err) :
    executeTool (toolRegistry fsRead fsWrite fsList webSearch webFetch codeExec
        dataTransform dataQuery) toolName parameters startTime endTime
      = ({ success := false
           result := none
           error := some err
           executionTimeMs := endTime - startTime }, false) := by
  simp [executeTool, hfind, hval]

/-- C8 witness: `execute("file_read", {})` lacks the required `path` and is
rejected with `"Missing required field: path"` without invoking the tool. -/
theorem executeTool_validation_failure_witness :
    ((testRegistry.find? (fun t => t.name == "file_read")) = some fileReadEntry)
    ∧ (validateParameters [] fileReadEntry.definition.parameters
        = some ("Missing required field: " ++ "path"))
    ∧ executeTool testRegistry "file_read" [] 0 3
        = ({ success := false
             result := none
             error := some ("Missing required field: " ++ "path")
             executionTimeMs := 3 - 0 }, false) :=
  ⟨rfl, rfl,
   executeTool_validation_failure okExec okExec okExec okExec okExec okExec okExec okExec
     "file_read" [] 0 3 fileReadEntry ("Missing required field: " ++ "path") rfl rfl⟩

/-! ### Structural lemmas about the per-fragment tool loop -/


theorem persistedMessages_append (a b : List OrchEvent) :
    persistedMessages (a ++ b) = persistedMessages a ++ persistedMessages b :=
  List.filterMap_append a b _

theorem execNames_append (a b : List OrchEvent) :
    execNames (a ++ b) = execNames a ++ execNames b :=
  List.filterMap_append a b _

theorem enqueuedChunks_append (a b : List OrchEvent) :
    enqueuedChunks (a ++ b) = enqueuedChunks a ++ enqueuedChunks b :=
  List.filterMap_append a b _

theorem runToolCall_cases (reg : List RegisteredTool) (sess : SessionModel)
    (store : List ChatMessage) (f : ToolCallFragment) :
    (fragSucceeds reg f = false
      ∧ runToolCall reg sess store f = (store, [OrchEvent.toolErrorLog f.name]))
    ∨ (fragSucceeds reg f = true
      ∧ ∃ args m, m.role = Role.tool
        ∧ runToolCall reg sess store f
            = (store ++ [m],
               [ OrchEvent.toolExec f.name args
               , OrchEvent.persistMsg m
               , OrchEvent.continuationCall
                   (({ role := .system, content := (sess.systemPrompt.getD "") } : ChatMessage)
                     :: (store ++ [m]).take 100)
               , OrchEvent.enqueueToolChunk ])) := by
  unfold runToolCall
  cases hp : jsonParse f.arguments with
  | none =>
    left
    constructor
    · unfold fragSucceeds
      rw [hp]
    · rfl
  | some v =>
    by_cases hc : ((reg.find? (fun t => t.name == f.name)).isSome && !(jsObjectLike v)) = true
    · left
      constructor
      · unfold fragSucceeds
        rw [hp]
        simp [hc]
      · simp [hc]
    · have hcf : ((reg.find? (fun t => t.name == f.name)).isSome && !(jsObjectLike v)) = false :=
        Bool.eq_false_iff.mpr hc
      right
      constructor
      · unfold fragSucceeds
        rw [hp]
        simp [hcf]
      · refine ⟨v,
          { role := .tool
            content := stringifyToolResult (executeTool reg f.name (jsEntries v) 0 0).1
            toolCallId := some f.id
            name := some f.name }, rfl, ?_⟩
        simp [hcf]

theorem runToolCalls_spec (reg : List RegisteredTool) (sess : SessionModel)
    (frags : List (Nat × ToolCallFragment)) : ∀ store : List ChatMessage,
    ((runToolCalls reg sess store frags).2.map eventKind
      = (frags.map (fun p => if fragSucceeds reg p.2 then
          [EventKind.exec, EventKind.persist, EventKind.continuation, EventKind.toolChunk]
          else [EventKind.errorLog])).flatten)
    ∧ ((runToolCalls reg sess store frags).1
        = store ++ persistedMessages (runToolCalls reg sess store frags).2)
    ∧ ((runToolCalls reg sess store frags).2.all persistToolOnly = true)
    ∧ (execNames (runToolCalls reg sess store frags).2
        = (frags.filter (fun p => fragSucceeds reg p.2)).map (fun p => p.2.name))
    ∧ (enqueuedChunks (runToolCalls reg sess store frags).2 = []) := by
  induction frags with
  | nil =>
    intro store
    refine ⟨rfl, by simp [runToolCalls, persistedMessages], rfl, rfl, rfl⟩
  | cons p rest ih =>
    intro store
    rcases runToolCall_cases reg sess store p.2 with ⟨hf, heq⟩ | ⟨hf, args, m, hrole, heq⟩
    · obtain ⟨ih1, ih2, ih3, ih4, ih5⟩ := ih store
      simp only [runToolCalls, heq]
      refine ⟨?_, ?_, ?_, ?_, ?_⟩
      · simp [eventKind, ih1, hf]
      · simp [persistedMessages_append, persistedMessages, ih2]
      · simp [persistToolOnly, ih3]
      · rw [execNames_append]
        have h0 : execNames [OrchEvent.toolErrorLog p.2.name] = [] := rfl
        rw [h0, ih4]
        simp [List.filter_cons, hf]
      · rw [enqueuedChunks_append, ih5]
        rfl
    · obtain ⟨ih1, ih2, ih3, ih4, ih5⟩ := ih (store ++ [m])
      simp only [runToolCalls, heq]
      refine ⟨?_, ?_, ?_, ?_, ?_⟩
      · simp [eventKind, ih1, hf]
      · simp only [persistedMessages_append]
        simp [persistedMessages, eventKind, ih2, List.append_assoc]
      · simp [persistToolOnly, eventKind, ih3, hrole]
      · rw [execNames_append]
        have h0 : execNames
            [ OrchEvent.toolExec p.2.name args
            , OrchEvent.persistMsg m
            , OrchEvent.continuationCall
                (({ role := .system, content := (sess.systemPrompt.getD "") } : ChatMessage)
                  :: (store ++ [m]).take 100)
            , OrchEvent.enqueueToolChunk ] = [p.2.name] := rfl
        rw [h0, ih4]
        simp [List.filter_cons, hf]
      · rw [enqueuedChunks_append, ih5]
        rfl

/-! ### Structural lemmas about the chunk loop -/

theorem processChoice_noFinish (reg : List RegisteredTool) (sess : SessionModel)
    (st : OrchState) (ch : ChunkChoice) (h : ch.finishReason = none) :
    processChoice reg sess st ch = { st with buffer := choiceBuffer st.buffer ch } := by
  unfold processChoice choiceBuffer
  rw [h]
  cases ch.delta.toolCalls <;> rfl

theorem foldl_processChoice_noFinish (reg : List RegisteredTool) (sess : SessionModel)
    (choices : List ChunkChoice) : ∀ st : OrchState,
    (∀ ch ∈ choices, ch.finishReason = none) →
    choices.foldl (processChoice reg sess) st
      = { st with buffer := choices.foldl choiceBuffer st.buffer } := by
  induction choices with
  | nil => intro st _; rfl
  | cons c cs ih =>
    intro st h
    simp only [List.foldl_cons]
    rw [processChoice_noFinish reg sess st c (h c (by simp)),
      ih _ (fun x hx => h x (by simp [hx]))]

theorem stepChunk_noFinish (reg : List RegisteredTool) (sess : SessionModel)
    (st : OrchState) (c : StreamChunk) (h : noFinish c = true) :
    stepChunk reg sess st c
      = { st with buffer := chunkBuffer st.buffer c,
                  events := st.events ++ [OrchEvent.enqueueChunk c] } := by
  have h' : ∀ ch ∈ c.choices, ch.finishReason = none := by
    intro ch hch
    have := (List.all_eq_true.mp h) ch hch
    simpa [Option.isNone_iff_eq_none] using this
  unfold stepChunk chunkBuffer
  rw [foldl_processChoice_noFinish reg sess c.choices st h']

theorem runStream_noFinish_segment (reg : List RegisteredTool) (sess : SessionModel)
    (pre : List StreamChunk) (rest : List StreamChunk) : ∀ st : OrchState,
    (∀ c ∈ pre, noFinish c = true) → st.finished = false →
    runStream reg sess (pre ++ rest) st
      = runStream reg sess rest
          { st with buffer := pre.foldl chunkBuffer st.buffer,
                    events := st.events ++ pre.map OrchEvent.enqueueChunk } := by
  induction pre with
  | nil =>
    intro st _ _
    simp
  | cons c cs ih =>
    intro st hpre hf
    simp only [List.cons_append, runStream]
    rw [stepChunk_noFinish reg sess st c (hpre c (by simp))]
    rw [if_neg (by simp [hf])]
    simp only [List.append_eq]
    rw [ih _ (fun x hx => hpre x (by simp [hx])) (by simp [hf])]
    simp [List.append_assoc]

theorem processChoice_finish (reg : List RegisteredTool) (sess : SessionModel)
    (st : OrchState) (ch : ChunkChoice) (r : String) (hr : ch.finishReason = some r) :
    processChoice reg sess st ch
      = (if (r == "tool_calls") && ((choiceBuffer st.buffer ch).length != 0) then
          runFragments reg sess { st with buffer := choiceBuffer st.buffer ch, finished := true }
        else { st with buffer := choiceBuffer st.buffer ch, finished := true }) := by
  unfold processChoice choiceBuffer
  rw [hr]
  cases ch.delta.toolCalls <;> rfl

theorem runStream_finish_toolCalls (reg : List RegisteredTool) (sess : SessionModel)
    (fc : StreamChunk) (ch : ChunkChoice) (st : OrchState)
    (hc : fc.choices = [ch]) (hr : ch.finishReason = some "tool_calls")
    (hne : ((choiceBuffer st.buffer ch).length != 0) = true) :
    runStream reg sess [fc] st
      = { buffer := choiceBuffer st.buffer ch
          store := (runToolCalls reg sess st.store (choiceBuffer st.buffer ch)).1
          events := st.events ++ (runToolCalls reg sess st.store (choiceBuffer st.buffer ch)).2
                    ++ [OrchEvent.enqueueChunk fc]
          finished := true } := by
  have hcond : (("tool_calls" == "tool_calls")
      && ((choiceBuffer st.buffer ch).length != 0)) = true := by simp [hne]
  unfold runStream stepChunk
  rw [hc]
  simp only [List.foldl_cons, List.foldl_nil]
  rw [processChoice_finish reg sess st ch "tool_calls" hr]
  rw [if_pos hcond]
  unfold runFragments
  rfl

theorem runStream_finish_other (reg : List RegisteredTool) (sess : SessionModel)
    (fc : StreamChunk) (ch : ChunkChoice) (r : String) (st : OrchState)
    (hc : fc.choices = [ch]) (hr : ch.finishReason = some r)
    (hother : ((r == "tool_calls") && ((choiceBuffer st.buffer ch).length != 0)) = false) :
    runStream reg sess [fc] st
      = { buffer := choiceBuffer st.buffer ch
          store := st.store
          events := st.events ++ [OrchEvent.enqueueChunk fc]
          finished := true } := by
  unfold runStream stepChunk
  rw [hc]
  simp only [List.foldl_cons, List.foldl_nil]
  rw [processChoice_finish reg sess st ch r hr]
  have hnot : ¬ ((r == "tool_calls") && ((choiceBuffer st.buffer ch).length != 0)) = true := by
    rw [hother]
    simp
  rw [if_neg hnot]
  rfl

theorem transformStream_shape_toolCalls (reg : List RegisteredTool) (sess : SessionModel)
    (store0 : List ChatMessage) (pre : List StreamChunk) (fc : StreamChunk) (ch : ChunkChoice)
    (hpre : ∀ c ∈ pre, noFinish c = true) (hc : fc.choices = [ch])
    (hr : ch.finishReason = some "tool_calls")
    (hne : ((accumBuffer (pre ++ [fc])).length != 0) = true) :
    transformStream reg sess store0 (pre ++ [fc])
      = { buffer := accumBuffer (pre ++ [fc])
          store := (runToolCalls reg sess store0 (accumBuffer (pre ++ [fc]))).1
          events := pre.map OrchEvent.enqueueChunk
                    ++ (runToolCalls reg sess store0 (accumBuffer (pre ++ [fc]))).2
                    ++ [OrchEvent.enqueueChunk fc]
          finished := true } := by
  have hacc : accumBuffer (pre ++ [fc])
      = choiceBuffer (List.foldl chunkBuffer [] pre) ch := by
    unfold accumBuffer
    rw [List.foldl_append]
    conv_lhs => rw [show List.foldl chunkBuffer (List.foldl chunkBuffer [] pre) [fc]
      = chunkBuffer (List.foldl chunkBuffer [] pre) fc from rfl]
    unfold chunkBuffer
    rw [hc]
    rfl
  rw [hacc] at hne
  unfold transformStream
  rw [runStream_noFinish_segment reg sess pre [fc] _ hpre rfl]
  rw [runStream_finish_toolCalls reg sess fc ch _ hc hr hne]
  rw [hacc]
  rfl

theorem transformStream_shape_other (reg : List RegisteredTool) (sess : SessionModel)
    (store0 : List ChatMessage) (pre : List StreamChunk) (fc : StreamChunk) (ch : ChunkChoice)
    (r : String) (hpre : ∀ c ∈ pre, noFinish c = true) (hc : fc.choices = [ch])
    (hr : ch.finishReason = some r)
    (hother : ((r == "tool_calls") && ((accumBuffer (pre ++ [fc])).length != 0)) = false) :
    transformStream reg sess store0 (pre ++ [fc])
      = { buffer := accumBuffer (pre ++ [fc])
          store := store0
          events := pre.map OrchEvent.enqueueChunk ++ [OrchEvent.enqueueChunk fc]
          finished := true } := by
  have hacc : accumBuffer (pre ++ [fc])
      = choiceBuffer (List.foldl chunkBuffer [] pre) ch := by
    unfold accumBuffer
    rw [List.foldl_append]
    conv_lhs => rw [show List.foldl chunkBuffer (List.foldl chunkBuffer [] pre) [fc]
      = chunkBuffer (List.foldl chunkBuffer [] pre) fc from rfl]
    unfold chunkBuffer
    rw [hc]
    rfl
  rw [hacc] at hother
  unfold transformStream
  rw [runStream_noFinish_segment reg sess pre [fc] _ hpre rfl]
  rw [runStream_finish_other reg sess fc ch r _ hc hr hother]
  rw [hacc]
  rfl

/-! ### Counting and invariant helpers -/

theorem enqueuedChunks_map_enqueue (l : List StreamChunk) :
    enqueuedChunks (l.map OrchEvent.enqueueChunk) = l := by
  induction l with
  | nil => rfl
  | cons c cs ih => simp [enqueuedChunks, List.filterMap_cons] at ih ⊢; exact ih

theorem map_if_all_true {α : Type} (l : List α) (f : α → Bool) (A B : List EventKind)
    (h : ∀ x ∈ l, f x = true) :
    l.map (fun x => if f x then A else B) = List.replicate l.length A := by
  induction l with
  | nil => rfl
  | cons x xs ih =>
    simp [h x (by simp), List.replicate_succ, ih (fun y hy => h y (by simp [hy]))]

theorem countP_flatten_map_if {α : Type} (l : List α) (f : α → Bool)
    (A B : List EventKind) (p : EventKind → Bool) :
    ((l.map (fun x => if f x then A else B)).flatten.countP p)
      = (l.filter f).length * A.countP p + (l.filter (fun x => !(f x))).length * B.countP p := by
  induction l with
  | nil => simp
  | cons x xs ih =>
    by_cases h : f x = true
    · simp [h, List.countP_append, List.filter_cons, ih]
      ring
    · have h' : f x = false := Bool.eq_false_iff.mpr h
      simp [h', List.countP_append, List.filter_cons, ih]
      ring

theorem countP_eventKind_of_map {evs : List OrchEvent} {ks : List EventKind}
    (h : evs.map eventKind = ks) (k : EventKind) :
    evs.countP (fun e => eventKind e == k) = ks.countP (fun x => x == k) := by
  rw [← h, List.countP_map]
  rfl

theorem runToolCalls_persistsBefore_one (reg : List RegisteredTool) (sess : SessionModel)
    (store : List ChatMessage) (p : Nat × ToolCallFragment)
    (rest : List (Nat × ToolCallFragment)) (hok : fragSucceeds reg p.2 = true) :
    persistsBeforeFirstContinuation (runToolCalls reg sess store (p :: rest)).2 = 1 := by
  rcases runToolCall_cases reg sess store p.2 with ⟨hf, _⟩ | ⟨_, args, m, hrole, heq⟩
  · rw [hok] at hf
    cases hf
  · simp only [runToolCalls, heq]
    unfold persistsBeforeFirstContinuation
    simp [List.takeWhile, isContinuationEvent, isPersistEvent, eventKind, List.countP,
      List.countP.go, List.cons_append]
    decide


theorem runFragments_inv (reg : List RegisteredTool) (sess : SessionModel)
    (st : OrchState) (store0 : List ChatMessage) (h : StoreInv store0 st) :
    StoreInv store0 (runFragments reg sess st) := by
  obtain ⟨h1, h2⟩ := h
  obtain ⟨_, s2, s3, _, _⟩ := runToolCalls_spec reg sess st.buffer st.store
  constructor
  · show (runToolCalls reg sess st.store st.buffer).1
      = store0 ++ persistedMessages (st.events ++ (runToolCalls reg sess st.store st.buffer).2)
    rw [s2, h1, persistedMessages_append, List.append_assoc]
  · show (st.events ++ (runToolCalls reg sess st.store st.buffer).2).all persistToolOnly = true
    simp [List.all_append, h2, s3]

theorem processChoice_inv (reg : List RegisteredTool) (sess : SessionModel)
    (st : OrchState) (ch : ChunkChoice) (store0 : List ChatMessage)
    (h : StoreInv store0 st) : StoreInv store0 (processChoice reg sess st ch) := by
  cases hfr : ch.finishReason with
  | none =>
    rw [processChoice_noFinish reg sess st ch hfr]
    exact h
  | some r =>
    rw [processChoice_finish reg sess st ch r hfr]
    split
    · exact runFragments_inv reg sess _ store0 h
    · exact h

theorem foldl_processChoice_inv (reg : List RegisteredTool) (sess : SessionModel)
    (choices : List ChunkChoice) : ∀ st : OrchState, ∀ store0 : List ChatMessage,
    StoreInv store0 st → StoreInv store0 (choices.foldl (processChoice reg sess) st) := by
  induction choices with
  | nil => intro st store0 h; exact h
  | cons c cs ih =>
    intro st store0 h
    exact ih _ store0 (processChoice_inv reg sess st c store0 h)

theorem stepChunk_inv (reg : List RegisteredTool) (sess : SessionModel)
    (st : OrchState) (c : StreamChunk) (store0 : List ChatMessage)
    (h : StoreInv store0 st) : StoreInv store0 (stepChunk reg sess st c) := by
  obtain ⟨h1, h2⟩ := foldl_processChoice_inv reg sess c.choices st store0 h
  constructor
  · show (c.choices.foldl (processChoice reg sess) st).store
      = store0 ++ persistedMessages
          ((c.choices.foldl (processChoice reg sess) st).events ++ [OrchEvent.enqueueChunk c])
    rw [persistedMessages_append, h1]
    simp [persistedMessages]
  · show ((c.choices.foldl (processChoice reg sess) st).events
        ++ [OrchEvent.enqueueChunk c]).all persistToolOnly = true
    simp [List.all_append, h2, persistToolOnly]

theorem runStream_inv (reg : List RegisteredTool) (sess : SessionModel)
    (chunks : List StreamChunk) : ∀ st : OrchState, ∀ store0 : List ChatMessage,
    StoreInv store0 st → StoreInv store0 (runStream reg sess chunks st) := by
  induction chunks with
  | nil =>
    intro st store0 ⟨h1, h2⟩
    constructor
    · show st.store = store0 ++ persistedMessages (st.events ++ [OrchEvent.closeStream])
      rw [persistedMessages_append, h1]
      simp [persistedMessages]
    · show (st.events ++ [OrchEvent.closeStream]).all persistToolOnly = true
      simp [List.all_append, h2, persistToolOnly]
  | cons c cs ih =>
    intro st store0 h
    show StoreInv store0
      (if (stepChunk reg sess st c).finished then stepChunk reg sess st c
       else runStream reg sess cs (stepChunk reg sess st c))
    split
    · exact stepChunk_inv reg sess st c store0 h
    · exact ih _ store0 (stepChunk_inv reg sess st c store0 h)


/-! ### Claim C1: tool executions and persistence around the continuation -/

/-- C1 counterexample. A turn ending in `tool_calls` with `N = 2` accumulated
fragments performs 2 executions and persists 2 tool messages, but only 1 of
them — not all `N` — is persisted before the first continuation completion
call is issued: the source issues one continuation call per fragment, inside
the loop, immediately after that fragment's persistence.  This refutes the
claim's "persists N tool-role messages to the store before it issues the
continuation completion call". -/
theorem transformStream_persistAllBeforeContinuation_counterexample :
    twoToolTrace.countP isToolExecEvent = 2
    ∧ twoToolTrace.countP isPersistEvent = 2
    ∧ twoToolTrace.countP isContinuationEvent = 2
    ∧ persistsBeforeFirstContinuation twoToolTrace = 1
    ∧ ¬ persistsBeforeFirstContinuation twoToolTrace = 2 := by
  refine ⟨rfl, rfl, rfl, rfl, ?_⟩
  decide

theorem countP_flatten_replicate (n : Nat) (blk : List EventKind) (p : EventKind → Bool) :
    ((List.replicate n blk).flatten).countP p = n * blk.countP p := by
  induction n with
  | zero => simp
  | succ m ih =>
    simp [List.replicate_succ, List.countP_append, ih]
    ring

/-- C1 amended. On a `tool_calls` finish with accumulated fragment table
`buf` (all of whose argument strings parse as JSON objects), the
orchestrator processes the fragments one at a time in fragment-table
insertion order — which is ascending index order exactly when indices first
arrive in ascending order — and for each fragment executes the tool,
persists one tool-role message, and immediately issues a continuation
completion call before touching the next fragment.  Hence `N` executions,
`N` persisted tool messages and `N` continuation calls occur, the executed
names are the buffered names in insertion order, but only 1 persisted
message — not all `N` — precedes the first continuation call. -/
theorem transformStream_toolCalls_per_fragment (registry : List RegisteredTool)
    (sess : SessionModel) (store0 : List ChatMessage) (pre : List StreamChunk)
    (fc : StreamChunk) (ch : ChunkChoice) (buf : List (Nat × ToolCallFragment))
    (hpre : ∀ c ∈ pre, noFinish c = true) (hc : fc.choices = [ch])
    (hr : ch.finishReason = some "tool_calls")
    (hbuf : buf = accumBuffer (pre ++ [fc])) (hne : ¬ buf = [])
    (hok : ∀ p ∈ buf, fragSucceeds registry p.2 = true) :
    (transformStream registry sess store0 (pre ++ [fc])).events
      = pre.map OrchEvent.enqueueChunk ++ (runToolCalls registry sess store0 buf).2
        ++ [OrchEvent.enqueueChunk fc]
    ∧ ((runToolCalls registry sess store0 buf).2.map eventKind
        = (List.replicate buf.length
            [EventKind.exec, EventKind.persist, EventKind.continuation,
             EventKind.toolChunk]).flatten)
    ∧ execNames (runToolCalls registry sess store0 buf).2 = buf.map (fun p => p.2.name)
    ∧ (runToolCalls registry sess store0 buf).2.countP isPersistEvent = buf.length
    ∧ (runToolCalls registry sess store0 buf).2.countP isContinuationEvent = buf.length
    ∧ persistsBeforeFirstContinuation (runToolCalls registry sess store0 buf).2 = 1 := by
  have hneb : ((accumBuffer (pre ++ [fc])).length != 0) = true := by
    rw [← hbuf]
    simpa [bne_iff_ne, List.length_eq_zero] using hne
  obtain ⟨k1, _, _, k4, _⟩ := runToolCalls_spec registry sess buf store0
  have hkinds : (runToolCalls registry sess store0 buf).2.map eventKind
      = (List.replicate buf.length
          [EventKind.exec, EventKind.persist, EventKind.continuation,
           EventKind.toolChunk]).flatten := by
    rw [k1, map_if_all_true buf (fun p => fragSucceeds registry p.2) _ _ hok]
  refine ⟨?_, hkinds, ?_, ?_, ?_, ?_⟩
  · rw [hbuf, transformStream_shape_toolCalls registry sess store0 pre fc ch hpre hc hr hneb]
  · rw [k4, List.filter_eq_self.mpr hok]
  · have h5 : (runToolCalls registry sess store0 buf).2.countP isPersistEvent
        = ((List.replicate buf.length
            [EventKind.exec, EventKind.persist, EventKind.continuation,
             EventKind.toolChunk]).flatten).countP (fun x => x == EventKind.persist) :=
      countP_eventKind_of_map hkinds EventKind.persist
    rw [h5, countP_flatten_replicate]
    have hb : List.countP (fun x => x == EventKind.persist)
        [EventKind.exec, EventKind.persist, EventKind.continuation, EventKind.toolChunk] = 1 := by
      decide
    rw [hb, Nat.mul_one]
  · have h6 : (runToolCalls registry sess store0 buf).2.countP isContinuationEvent
        = ((List.replicate buf.length
            [EventKind.exec, EventKind.persist, EventKind.continuation,
             EventKind.toolChunk]).flatten).countP (fun x => x == EventKind.continuation) :=
      countP_eventKind_of_map hkinds EventKind.continuation
    rw [h6, countP_flatten_replicate]
    have hb : List.countP (fun x => x == EventKind.continuation)
        [EventKind.exec, EventKind.persist, EventKind.continuation, EventKind.toolChunk] = 1 := by
      decide
    rw [hb, Nat.mul_one]
  · cases hb : buf with
    | nil => exact absurd hb hne
    | cons p rest =>
      exact runToolCalls_persistsBefore_one registry sess store0 p rest
        (hok p (by simp [hb]))

/-- C1 witness. The per-fragment theorem applied to the concrete
two-fragment `tool_calls` turn. -/
theorem transformStream_toolCalls_per_fragment_witness :
    (∀ p ∈ accumBuffer ([] ++ [twoToolFinishChunk]), fragSucceeds testRegistry p.2 = true)
    ∧ ¬ accumBuffer ([] ++ [twoToolFinishChunk]) = []
    ∧ (runToolCalls testRegistry testSession []
        (accumBuffer ([] ++ [twoToolFinishChunk]))).2.countP isPersistEvent
        = (accumBuffer ([] ++ [twoToolFinishChunk])).length
    ∧ persistsBeforeFirstContinuation
        (runToolCalls testRegistry testSession []
          (accumBuffer ([] ++ [twoToolFinishChunk]))).2 = 1 := by
  have h := transformStream_toolCalls_per_fragment testRegistry testSession [] []
    twoToolFinishChunk twoToolChoice (accumBuffer ([] ++ [twoToolFinishChunk]))
    (by simp) rfl rfl rfl (by decide) (by decide)
  exact ⟨by decide, by decide, h.2.2.2.1, h.2.2.2.2.2⟩

/-! ### Claim C2: the continuation turn -/

/-- C2 evaluation at a failing input (one accumulated fragment, finish
reason `tool_calls`).  The source awaits the continuation
`openai.chat.completions.create` call but binds its returned stream to
nothing: the trace shows exactly one continuation call, after which the only
things sent to the caller are one synthetic empty tool-result chunk and the
provider's own finish chunk, and the exchange terminates — no chunk of the
continuation's output is ever read or forwarded, and no re-triggering of the
tool sequence can occur because the read loop has already ended. -/
theorem transformStream_continuation_discarded :
    ((transformStream testRegistry testSession [] [oneToolFinishChunk]).events.map eventKind
      = [EventKind.exec, EventKind.persist, EventKind.continuation, EventKind.toolChunk,
         EventKind.chunk])
    ∧ enqueuedChunks (transformStream testRegistry testSession [] [oneToolFinishChunk]).events
        = [oneToolFinishChunk]
    ∧ (transformStream testRegistry testSession [] [oneToolFinishChunk]).events.countP
        isContinuationEvent = 1 :=
  ⟨rfl, rfl, rfl⟩

/-! ### Claim C3: malformed tool-call argument strings -/

/-- C3 counterexample. For the fragment whose accumulated argument string is
`"not json"` the parse failure is caught, but contrary to the claim it is
not converted into a persisted `ToolResult` with `success = false`: the
trace records only an error log and the forwarded finish chunk — no tool
execution, no persisted message, and the store is unchanged. -/
theorem malformedArgs_no_toolResult_counterexample :
    jsonParse "not json" = none
    ∧ ((transformStream testRegistry testSession [] [badArgsFinishChunk]).events.map eventKind
        = [EventKind.errorLog, EventKind.chunk])
    ∧ (transformStream testRegistry testSession [] [badArgsFinishChunk]).events.countP
        isPersistEvent = 0
    ∧ (transformStream testRegistry testSession [] [badArgsFinishChunk]).events.countP
        isToolExecEvent = 0
    ∧ (transformStream testRegistry testSession [] [badArgsFinishChunk]).store = [] :=
  ⟨rfl, rfl, rfl, rfl, rfl⟩

/-- C3 amended. A fragment whose accumulated argument string fails to parse
is absorbed locally: the thrown `SyntaxError` is caught by the per-fragment
`catch`, which only logs it — no `ToolResult` is produced or persisted for
that fragment, no tool execution occurs for it, the remaining fragments are
still processed, the finish chunk is still forwarded, and nothing errors the
caller-facing stream (every trace, with parseable and unparseable fragments
mixed, is the per-fragment interleaving below). -/
theorem transformStream_malformedArgs_absorbed (registry : List RegisteredTool)
    (sess : SessionModel) (store0 : List ChatMessage) (pre : List StreamChunk)
    (fc : StreamChunk) (ch : ChunkChoice) (buf : List (Nat × ToolCallFragment))
    (hpre : ∀ c ∈ pre, noFinish c = true) (hc : fc.choices = [ch])
    (hr : ch.finishReason = some "tool_calls")
    (hbuf : buf = accumBuffer (pre ++ [fc])) (hne : ¬ buf = []) :
    (transformStream registry sess store0 (pre ++ [fc])).events
      = pre.map OrchEvent.enqueueChunk ++ (runToolCalls registry sess store0 buf).2
        ++ [OrchEvent.enqueueChunk fc]
    ∧ ((runToolCalls registry sess store0 buf).2.map eventKind
        = (buf.map (fun p => if fragSucceeds registry p.2 then
            [EventKind.exec, EventKind.persist, EventKind.continuation, EventKind.toolChunk]
            else [EventKind.errorLog])).flatten)
    ∧ ((runToolCalls registry sess store0 buf).2.countP isPersistEvent
        = (buf.filter (fun p => fragSucceeds registry p.2)).length)
    ∧ ((runToolCalls registry sess store0 buf).2.countP isToolExecEvent
        = (buf.filter (fun p => fragSucceeds registry p.2)).length)
    ∧ ((runToolCalls registry sess store0 buf).2.countP
          (fun e => eventKind e == EventKind.errorLog)
        = (buf.filter (fun p => !(fragSucceeds registry p.2))).length) := by
  have hneb : ((accumBuffer (pre ++ [fc])).length != 0) = true := by
    rw [← hbuf]
    simpa [bne_iff_ne, List.length_eq_zero] using hne
  obtain ⟨k1, _, _, _, _⟩ := runToolCalls_spec registry sess buf store0
  refine ⟨?_, k1, ?_, ?_, ?_⟩
  · rw [hbuf, transformStream_shape_toolCalls registry sess store0 pre fc ch hpre hc hr hneb]
  · have h5 : (runToolCalls registry sess store0 buf).2.countP isPersistEvent
        = ((buf.map (fun p => if fragSucceeds registry p.2 then
            [EventKind.exec, EventKind.persist, EventKind.continuation, EventKind.toolChunk]
            else [EventKind.errorLog])).flatten).countP (fun x => x == EventKind.persist) :=
      countP_eventKind_of_map k1 EventKind.persist
    rw [h5, countP_flatten_map_if]
    have hA : List.countP (fun x => x == EventKind.persist)
        [EventKind.exec, EventKind.persist, EventKind.continuation, EventKind.toolChunk] = 1 := by
      decide
    have hB : List.countP (fun x => x == EventKind.persist) [EventKind.errorLog] = 0 := by
      decide
    rw [hA, hB, Nat.mul_one, Nat.mul_zero, Nat.add_zero]
  · have h5 : (runToolCalls registry sess store0 buf).2.countP isToolExecEvent
        = ((buf.map (fun p => if fragSucceeds registry p.2 then
            [EventKind.exec, EventKind.persist, EventKind.continuation, EventKind.toolChunk]
            else [EventKind.errorLog])).flatten).countP (fun x => x == EventKind.exec) :=
      countP_eventKind_of_map k1 EventKind.exec
    rw [h5, countP_flatten_map_if]
    have hA : List.countP (fun x => x == EventKind.exec)
        [EventKind.exec, EventKind.persist, EventKind.continuation, EventKind.toolChunk] = 1 := by
      decide
    have hB : List.countP (fun x => x == EventKind.exec) [EventKind.errorLog] = 0 := by
      decide
    rw [hA, hB, Nat.mul_one, Nat.mul_zero, Nat.add_zero]
  · have h5 : (runToolCalls registry sess store0 buf).2.countP
          (fun e => eventKind e == EventKind.errorLog)
        = ((buf.map (fun p => if fragSucceeds registry p.2 then
            [EventKind.exec, EventKind.persist, EventKind.continuation, EventKind.toolChunk]
            else [EventKind.errorLog])).flatten).countP (fun x => x == EventKind.errorLog) :=
      countP_eventKind_of_map k1 EventKind.errorLog
    rw [h5, countP_flatten_map_if]
    have hA : List.countP (fun x => x == EventKind.errorLog)
        [EventKind.exec, EventKind.persist, EventKind.continuation, EventKind.toolChunk] = 0 := by
      decide
    have hB : List.countP (fun x => x == EventKind.errorLog) [EventKind.errorLog] = 1 := by
      decide
    rw [hA, hB, Nat.mul_one, Nat.mul_zero, Nat.zero_add]

/-- C3 witness. The absorption theorem applied to the concrete turn whose
single fragment's argument string is `"not json"`: the fragment fails, zero
messages are persisted, one error is logged, and the chunk is forwarded. -/
theorem transformStream_malformedArgs_absorbed_witness :
    ¬ accumBuffer ([] ++ [badArgsFinishChunk]) = []
    ∧ (runToolCalls testRegistry testSession []
        (accumBuffer ([] ++ [badArgsFinishChunk]))).2.countP isPersistEvent
        = ((accumBuffer ([] ++ [badArgsFinishChunk])).filter
            (fun p => fragSucceeds testRegistry p.2)).length
    ∧ (transformStream testRegistry testSession [] ([] ++ [badArgsFinishChunk])).events
        = (([] : List StreamChunk).map OrchEvent.enqueueChunk)
          ++ (runToolCalls testRegistry testSession []
              (accumBuffer ([] ++ [badArgsFinishChunk]))).2
          ++ [OrchEvent.enqueueChunk badArgsFinishChunk] := by
  have h := transformStream_malformedArgs_absorbed testRegistry testSession [] []
    badArgsFinishChunk badArgsChoice (accumBuffer ([] ++ [badArgsFinishChunk]))
    (by simp) rfl rfl rfl (by decide)
  exact ⟨by decide, h.2.2.1, h.1⟩

/-! ### Claim C5: raw tool-call deltas and the caller-facing stream -/

/-- C5 counterexample. A provider chunk carrying tool-call deltas is
forwarded verbatim to the caller by the unconditional enqueue at the end of
each loop iteration, so the caller-facing stream does contain raw tool-call
delta content — contrary to the claim. -/
theorem toolCallDeltas_forwarded_counterexample :
    (deltaOnlyChunk.choices.any (fun ch => ch.delta.toolCalls.isSome)) = true
    ∧ enqueuedChunks
        (transformStream testRegistry testSession [] [deltaOnlyChunk, stopChunk]).events
        = [deltaOnlyChunk, stopChunk]
    ∧ argsAt (transformStream testRegistry testSession [] [deltaOnlyChunk, stopChunk]).buffer 0
        = qArgs :=
  ⟨rfl, rfl, rfl⟩

/-- C5 amended. Tool-call deltas are accumulated into the in-memory
fragment table keyed by index until a finish reason arrives, and in
addition every provider chunk consumed — including chunks carrying raw
tool-call deltas — is forwarded verbatim to the caller. -/
theorem transformStream_forwards_all_chunks (registry : List RegisteredTool)
    (sess : SessionModel) (store0 : List ChatMessage) (pre : List StreamChunk)
    (fc : StreamChunk) (ch : ChunkChoice) (r : String)
    (hpre : ∀ c ∈ pre, noFinish c = true) (hc : fc.choices = [ch])
    (hr : ch.finishReason = some r) :
    enqueuedChunks (transformStream registry sess store0 (pre ++ [fc])).events = pre ++ [fc]
    ∧ (transformStream registry sess store0 (pre ++ [fc])).buffer
        = accumBuffer (pre ++ [fc]) := by
  by_cases hcond : ((r == "tool_calls") && ((accumBuffer (pre ++ [fc])).length != 0)) = true
  · have hrt : r = "tool_calls" := by
      have h1 := ((Bool.and_eq_true _ _).mp hcond).1
      simpa using h1
    subst hrt
    have hne : ((accumBuffer (pre ++ [fc])).length != 0) = true :=
      ((Bool.and_eq_true _ _).mp hcond).2
    obtain ⟨_, _, _, _, k5⟩ :=
      runToolCalls_spec registry sess (accumBuffer (pre ++ [fc])) store0
    rw [transformStream_shape_toolCalls registry sess store0 pre fc ch hpre hc hr hne]
    constructor
    · show enqueuedChunks
          (pre.map OrchEvent.enqueueChunk
            ++ (runToolCalls registry sess store0 (accumBuffer (pre ++ [fc]))).2
            ++ [OrchEvent.enqueueChunk fc]) = pre ++ [fc]
      rw [enqueuedChunks_append, enqueuedChunks_append, k5, enqueuedChunks_map_enqueue]
      simp [enqueuedChunks]
    · rfl
  · have hcf : ((r == "tool_calls") && ((accumBuffer (pre ++ [fc])).length != 0)) = false :=
      Bool.eq_false_iff.mpr hcond
    rw [transformStream_shape_other registry sess store0 pre fc ch r hpre hc hr hcf]
    constructor
    · show enqueuedChunks
          (pre.map OrchEvent.enqueueChunk ++ [OrchEvent.enqueueChunk fc]) = pre ++ [fc]
      rw [enqueuedChunks_append, enqueuedChunks_map_enqueue]
      rfl
    · rfl

/-- C5 witness. The forwarding theorem applied to a concrete stream with one
raw-delta chunk followed by a stop chunk. -/
theorem transformStream_forwards_all_chunks_witness :
    (∀ c ∈ [deltaOnlyChunk], noFinish c = true)
    ∧ enqueuedChunks
        (transformStream testRegistry testSession [] ([deltaOnlyChunk] ++ [stopChunk])).events
        = [deltaOnlyChunk] ++ [stopChunk]
    ∧ (transformStream testRegistry testSession [] ([deltaOnlyChunk] ++ [stopChunk])).buffer
        = accumBuffer ([deltaOnlyChunk] ++ [stopChunk]) := by
  have h := transformStream_forwards_all_chunks testRegistry testSession []
    [deltaOnlyChunk] stopChunk stopChoice "stop" (by decide) rfl rfl
  exact ⟨by decide, h.1, h.2⟩

/-! ### Claim C9: the frame of the streaming pipeline on the store -/

/-- C9. For every registry, session, initial store contents and provider
chunk sequence, the streaming pipeline's effect on the conversation store is
exactly to append the messages it persists, and every one of those is a
tool-role message: the caller's user message and the assistant's streamed
textual reply are never persisted by the stream transform (and `processChat`
itself, `part_002:88–137`, contains no `saveMessage` call at all — it only
delegates to `transformStream`). -/
theorem transformStream_persists_only_tool_messages (registry : List RegisteredTool)
    (sess : SessionModel) (store0 : List ChatMessage) (chunks : List StreamChunk) :
    (transformStream registry sess store0 chunks).store
      = store0 ++ persistedMessages (transformStream registry sess store0 chunks).events
    ∧ ((transformStream registry sess store0 chunks).events.all persistToolOnly = true) :=
  runStream_inv registry sess chunks
    { buffer := [], store := store0, events := [], finished := false } store0
    ⟨by simp [persistedMessages], rfl⟩
